import Mathlib

/-!
Shallow embedding of the brute-force login-attempt guard
(pkg/services/loginattempt/loginattemptimpl/login_attempt.go) and of the
CloudWatch dimension-keys route handler
(pkg/tsdb/cloudwatch/routes/dimension_keys.go).

Modelling conventions:
- Go time.Duration values are Int nanoseconds; timestamps are Int.
- The attempt store, the server lock and the collaborators of the route
  handler live behind narrow interfaces; they are embedded as records of
  pure functions (oracles) so that theorems quantify over every possible
  collaborator behaviour.
- Each service operation that reads the wall clock takes a clock stream
  (Nat to Int): the value of sample n is what the n-th call of time.Now
  inside that invocation would return. The source samples once, so the
  definitions read only sample 0.
- Operations additionally return the trace of store operations they issue,
  so that frame claims (no writes, only a count query) are statable.
- The background Run loop is driven by an explicit list of events, each
  being a ticker fire or a context-done signal carrying a cause; the
  ticker period itself is the constant runTickerInterval.
-/

namespace loginattemptimpl

/-- Go time.Duration, in nanoseconds. -/
abbrev Duration := Int

/-- Go time.Minute (nanoseconds in one minute). -/
def Duration.minute : Duration := 60000000000

/-- const maxInvalidLoginAttempts int64 = 5 -/
def maxInvalidLoginAttempts : Int := 5

/-- const loginAttemptsWindow = time.Minute * 5 -/
def loginAttemptsWindow : Duration := Duration.minute * 5

/-- An opaque Go error value. -/
structure Err where
  msg : String
deriving DecidableEq

/-- The slice of setting.Cfg the service reads. -/
structure Cfg where
  DisableBruteForceLoginProtection : Bool
deriving DecidableEq

structure CreateLoginAttemptCommand where
  Username : String
  IpAddress : String
deriving DecidableEq

structure GetUserLoginAttemptCountQuery where
  Username : String
  Since : Int
deriving DecidableEq

structure DeleteOldLoginAttemptsCommand where
  OlderThan : Int
deriving DecidableEq

/-- A stored login-attempt row: username, source address, creation time. -/
structure LoginAttempt where
  Username : String
  IpAddress : String
  Created : Int
deriving DecidableEq

/-- The store interface, as a record of result oracles: any behaviour of
the real store (success values and failures) is one inhabitant. -/
structure Store where
  CreateLoginAttempt : CreateLoginAttemptCommand → Except Err Unit
  GetUserLoginAttemptCount : GetUserLoginAttemptCountQuery → Except Err Int
  DeleteOldLoginAttempts : DeleteOldLoginAttemptsCommand → Except Err Int

/-- One store operation issued by the service, recorded in traces. -/
inductive StoreOp where
  | create (cmd : CreateLoginAttemptCommand)
  | count (query : GetUserLoginAttemptCountQuery)
  | deleteOld (cmd : DeleteOldLoginAttemptsCommand)
deriving DecidableEq

/-- The effect of one store operation on the set of stored rows, per the
contract in the spec (create inserts a row stamped with the current time,
a count query is a pure read, delete removes the rows strictly older than
the threshold). -/
def applyOp (records : List LoginAttempt) (now : Int) : StoreOp → List LoginAttempt
  | StoreOp.create cmd =>
      { Username := cmd.Username, IpAddress := cmd.IpAddress, Created := now } :: records
  | StoreOp.count _ => records
  | StoreOp.deleteOld cmd => records.filter (fun r => decide (cmd.OlderThan ≤ r.Created))

/-- The effect of a trace of store operations on the set of stored rows. -/
def applyOps (records : List LoginAttempt) (now : Int) : List StoreOp → List LoginAttempt
  | [] => records
  | op :: rest => applyOps (applyOp records now op) now rest

/-- The Service struct; the lock and the logger are modelled at the call
sites (lock outcomes as oracles, log lines as trace entries). -/
structure Service where
  store : Store
  cfg : Cfg

/-- Service.Add: record a failed login attempt. Returns the result the
caller sees together with the trace of store operations issued. -/
def Service.Add (s : Service) (username IPAddress : String) :
    Except Err Unit × List StoreOp :=
  if s.cfg.DisableBruteForceLoginProtection then (Except.ok (), [])
  else
    let cmd : CreateLoginAttemptCommand := { Username := username, IpAddress := IPAddress }
    (s.store.CreateLoginAttempt cmd, [StoreOp.create cmd])

/-- Service.Validate: decide whether the user may attempt a login.
clock n is the value the n-th time.Now call of this invocation would
return; the source calls time.Now once, so only clock 0 is read. -/
def Service.Validate (s : Service) (clock : Nat → Int) (username : String) :
    Except Err Bool × List StoreOp :=
  if s.cfg.DisableBruteForceLoginProtection then (Except.ok true, [])
  else
    let loginAttemptCountQuery : GetUserLoginAttemptCountQuery :=
      { Username := username, Since := clock 0 - loginAttemptsWindow }
    let result : Except Err Bool :=
      match s.store.GetUserLoginAttemptCount loginAttemptCountQuery with
      | Except.error err => Except.error err
      | Except.ok count =>
          if count ≥ maxInvalidLoginAttempts then Except.ok false
          else Except.ok true
    (result, [StoreOp.count loginAttemptCountQuery])

/-- Outcome of one ServerLockService.LockAndExecute call: the lock was
acquired and the action ran, the lock was held elsewhere and the action
was skipped without error, or the lock attempt itself failed. -/
inductive LockOutcome where
  | acquired
  | notAcquired
  | lockError (e : Err)
deriving DecidableEq

/-- One log line emitted by the service (level and message). -/
inductive LogEntry where
  | logError (msg : String)
  | logDebug (msg : String)
deriving DecidableEq

/-- The environment of one cleanup invocation: what the lock service does
on this call, and the clock stream of this invocation. -/
structure TickEnv where
  lockOutcome : LockOutcome
  clock : Nat → Int

/-- What one cleanup invocation did: the lock name and maximum hold
duration it requested, the lock outcome it observed, the time it sampled,
the store operations it issued and the log lines it emitted. -/
structure CleanupResult where
  lockName : String
  lockDuration : Duration
  lockOutcome : LockOutcome
  now : Int
  storeOps : List StoreOp
  logs : List LogEntry
deriving DecidableEq

/-- Service.cleanup, parametrised by the store (the method reads only
s.store, s.lock and s.logger; the lock and logger are the env/trace). -/
def cleanupWithStore (store : Store) (env : TickEnv) : CleanupResult :=
  match env.lockOutcome with
  | LockOutcome.lockError _ =>
      { lockName := "delete old login attempts", lockDuration := Duration.minute * 10,
        lockOutcome := env.lockOutcome, now := env.clock 0, storeOps := [],
        logs := [LogEntry.logError "failed to lock and execute cleanup of old login attempts"] }
  | LockOutcome.notAcquired =>
      { lockName := "delete old login attempts", lockDuration := Duration.minute * 10,
        lockOutcome := env.lockOutcome, now := env.clock 0, storeOps := [], logs := [] }
  | LockOutcome.acquired =>
      let cmd : DeleteOldLoginAttemptsCommand :=
        { OlderThan := env.clock 0 + Duration.minute * (-10) }
      { lockName := "delete old login attempts", lockDuration := Duration.minute * 10,
        lockOutcome := env.lockOutcome, now := env.clock 0,
        storeOps := [StoreOp.deleteOld cmd],
        logs :=
          match store.DeleteOldLoginAttempts cmd with
          | Except.error _ => [LogEntry.logError "Problem deleting expired login attempts"]
          | Except.ok _ => [LogEntry.logDebug "Deleted expired login attempts"] }

/-- Service.cleanup. -/
def Service.cleanup (s : Service) (env : TickEnv) : CleanupResult :=
  cleanupWithStore s.store env

/-- The ticker period of the Run loop: time.NewTicker(time.Minute * 10). -/
def runTickerInterval : Duration := Duration.minute * 10

/-- One event the select statement of Run can observe. -/
inductive RunEvent where
  | tick
  | ctxDone (cause : Err)
deriving DecidableEq

/-- Observable outcome of Run on a finite event prefix: still looping, or
returned with the given Go error value (none is a nil error). -/
inductive RunOutcome where
  | running
  | returned (result : Option Err)
deriving DecidableEq

/-- The for/select loop body of Run, once past the disabled check. It has
no access to the configuration: the disabled flag is not re-read here.
envs n is the environment of the cleanup run on the n-th tick. -/
def runTicks (store : Store) (envs : Nat → TickEnv) :
    List RunEvent → Nat → RunOutcome × List CleanupResult
  | [], _ => (RunOutcome.running, [])
  | RunEvent.tick :: rest, n =>
      let c := cleanupWithStore store (envs n)
      let r := runTicks store envs rest (n + 1)
      (r.fst, c :: r.snd)
  | RunEvent.ctxDone cause :: _, _ => (RunOutcome.returned (some cause), [])

/-- Service.Run: returns nil at once when protection is disabled,
otherwise runs the ticker loop over the supplied events. -/
def Service.Run (s : Service) (envs : Nat → TickEnv) (events : List RunEvent) :
    RunOutcome × List CleanupResult :=
  if s.cfg.DisableBruteForceLoginProtection then (RunOutcome.returned none, [])
  else runTicks s.store envs events 0

/-- The cause of the first context-done event of the list, if any. -/
def firstCause : List RunEvent → Option Err
  | [] => none
  | RunEvent.tick :: rest => firstCause rest
  | RunEvent.ctxDone cause :: _ => some cause

/-- Modelled from the spec: the xormStore implementation of
GetUserLoginAttemptCount is not under src (only the service that calls it
is), so the windowed count is taken from the spec, which says the count
covers the rows of the username strictly within the window: a row whose
timestamp equals the Since bound exactly is excluded. -/
def countLoginAttempts (records : List LoginAttempt)
    (query : GetUserLoginAttemptCountQuery) : Int :=
  ((records.filter
      (fun r => decide (r.Username = query.Username) && decide (query.Since < r.Created))).length : Int)

/-- A store backed by a fixed list of rows, counting with
countLoginAttempts and never failing. -/
def listStore (records : List LoginAttempt) : Store :=
  { CreateLoginAttempt := fun _ => Except.ok (),
    GetUserLoginAttemptCount := fun q => Except.ok (countLoginAttempts records q),
    DeleteOldLoginAttempts := fun _ => Except.ok 0 }

/-! Concrete fixtures used by the witness theorems. -/

/-- Configuration with brute-force protection enabled. -/
def cfgOn : Cfg := { DisableBruteForceLoginProtection := false }

/-- Configuration with brute-force protection disabled. -/
def cfgOff : Cfg := { DisableBruteForceLoginProtection := true }

/-- A sample store failure. -/
def errX : Err := { msg := "connection refused" }

/-- A store whose count query always answers n and whose writes succeed. -/
def storeConst (n : Int) : Store :=
  { CreateLoginAttempt := fun _ => Except.ok (),
    GetUserLoginAttemptCount := fun _ => Except.ok n,
    DeleteOldLoginAttempts := fun _ => Except.ok 0 }

/-- A store on which every operation fails with errX. -/
def storeFail : Store :=
  { CreateLoginAttempt := fun _ => Except.error errX,
    GetUserLoginAttemptCount := fun _ => Except.error errX,
    DeleteOldLoginAttempts := fun _ => Except.error errX }

/-- A fixed clock stream. -/
def clockAt (t : Int) : Nat → Int := fun _ => t

/-- A tick environment whose lock is always acquired at time t. -/
def envAcquired (t : Int) : TickEnv :=
  { lockOutcome := LockOutcome.acquired, clock := clockAt t }

end loginattemptimpl

namespace routes

/-- An opaque Go error value (cloudwatch side). -/
structure GoErr where
  msg : String
deriving DecidableEq

/-- Go url.Values: a map from parameter name to the list of its values. -/
abbrev UrlValues := List (String × List String)

/-- net/http status codes used by the handler. -/
def StatusBadRequest : Nat := 400

def StatusInternalServerError : Nat := 500

/-- The two request kinds the switch on dimensionKeysRequest.Type()
distinguishes. -/
inductive DimensionKeysRequestKind where
  | FilterDimensionKeysRequest
  | StandardDimensionKeysRequest
deriving DecidableEq

/-- resources.DimensionKeysRequest, restricted to the fields the handler
reads. The resources package is not under src, so the result of the Type
method is carried as a field. -/
structure DimensionKeysRequest where
  Region : String
  Namespace : String
  requestKind : DimensionKeysRequestKind

/-- models.HttpError, restricted to the fields the handler sets. -/
structure HttpError where
  Message : String
  StatusCode : Nat
  Error : GoErr
deriving DecidableEq

/-- models.NewHttpError. -/
def NewHttpError (message : String) (statusCode : Nat) (err : GoErr) : HttpError :=
  { Message := message, StatusCode := statusCode, Error := err }

/-- models.ListMetricsProvider, reduced to the one method the handler
calls: GetDimensionKeysByDimensionFilter. -/
abbrev ListMetricsProvider := DimensionKeysRequest → Except GoErr (List String)

/-- backend.PluginContext (opaque to the handler). -/
structure PluginContext where
  OrgID : Int

/-- The collaborators DimensionKeysHandler calls, all outside src:
resources.GetDimensionKeysRequest, the stubbable newListMetricsService
package variable, services.GetHardCodedDimensionKeysByNamespace and
json.Marshal (its output is the byte slice, as a list of byte values). -/
structure RoutesDeps where
  getDimensionKeysRequest : UrlValues → Except GoErr DimensionKeysRequest
  newListMetricsService : PluginContext → String → Except GoErr ListMetricsProvider
  getHardCodedDimensionKeysByNamespace : String → Except GoErr (List String)
  jsonMarshal : List String → Except GoErr (List Nat)

/-- DimensionKeysHandler. The Go function returns a pair
([]byte, *models.HttpError); nil is modelled as none on both sides. -/
def DimensionKeysHandler (deps : RoutesDeps) (pluginCtx : PluginContext)
    (parameters : UrlValues) : Option (List Nat) × Option HttpError :=
  match deps.getDimensionKeysRequest parameters with
  | Except.error err =>
      (none, some (NewHttpError "error in DimensionKeyHandler" StatusBadRequest err))
  | Except.ok dimensionKeysRequest =>
    match deps.newListMetricsService pluginCtx dimensionKeysRequest.Region with
    | Except.error err =>
        (none, some (NewHttpError "error in DimensionKeyHandler" StatusInternalServerError err))
    | Except.ok service =>
      let response : Except GoErr (List String) :=
        match dimensionKeysRequest.requestKind with
        | DimensionKeysRequestKind.FilterDimensionKeysRequest =>
            service dimensionKeysRequest
        | DimensionKeysRequestKind.StandardDimensionKeysRequest =>
            deps.getHardCodedDimensionKeysByNamespace dimensionKeysRequest.Namespace
      match response with
      | Except.error err =>
          (none, some (NewHttpError "error in DimensionKeyHandler" StatusInternalServerError err))
      | Except.ok response =>
        match deps.jsonMarshal response with
        | Except.error err =>
            (none, some (NewHttpError "error in DimensionKeyHandler" StatusInternalServerError err))
        | Except.ok jsonResponse => (some jsonResponse, none)

/-! Concrete fixtures used by the witness theorems. -/

/-- A plugin context fixture. -/
def ctx0 : PluginContext := { OrgID := 1 }

/-- Collaborators on which parameter parsing fails. -/
def depsParseFail : RoutesDeps :=
  { getDimensionKeysRequest := fun _ => Except.error { msg := "bad request" },
    newListMetricsService := fun _ _ =>
      Except.ok (fun _ => Except.ok ["InstanceId"]),
    getHardCodedDimensionKeysByNamespace := fun _ => Except.ok ["InstanceId"],
    jsonMarshal := fun _ => Except.ok [91, 93] }

end routes

namespace loginattemptimpl

/-- Helper: the loop outcome of runTicks is decided by the first
context-done event alone; store results and lock outcomes never end it. -/
theorem runTicks_fst (store : Store) (envs : Nat → TickEnv) :
    ∀ (events : List RunEvent) (n : Nat),
      (runTicks store envs events n).fst =
        match firstCause events with
        | none => RunOutcome.running
        | some cause => RunOutcome.returned (some cause) := by
  intro events
  induction events with
  | nil => intro n; rfl
  | cons ev rest ih =>
      intro n
      cases ev with
      | tick => simpa [runTicks, firstCause] using ih (n + 1)
      | ctxDone cause => rfl

/-- Helper: every element of the cleanup trace of runTicks is a
cleanupWithStore run on some tick environment. -/
theorem runTicks_mem_cleanup (store : Store) (envs : Nat → TickEnv) :
    ∀ (events : List RunEvent) (n : Nat) (c : CleanupResult),
      c ∈ (runTicks store envs events n).snd →
        ∃ env : TickEnv, c = cleanupWithStore store env := by
  intro events
  induction events with
  | nil => intro n c h; simp [runTicks] at h
  | cons ev rest ih =>
      intro n c h
      cases ev with
      | tick =>
          simp only [runTicks, List.mem_cons] at h
          rcases h with h | h
          · exact ⟨envs n, h⟩
          · exact ih (n + 1) c h
      | ctxDone cause => simp [runTicks] at h

/-- Helper: the fields every cleanupWithStore run produces. -/
theorem cleanupWithStore_fields (store : Store) (env : TickEnv) :
    (cleanupWithStore store env).lockName = "delete old login attempts" ∧
    (cleanupWithStore store env).lockDuration = Duration.minute * 10 ∧
    (cleanupWithStore store env).lockOutcome = env.lockOutcome ∧
    (cleanupWithStore store env).now = env.clock 0 ∧
    (env.lockOutcome = LockOutcome.acquired →
      (cleanupWithStore store env).storeOps =
        [StoreOp.deleteOld { OlderThan := env.clock 0 - Duration.minute * 10 }]) := by
  have harith : env.clock 0 + -(Duration.minute * 10) = env.clock 0 - Duration.minute * 10 := by
    ring
  cases h : env.lockOutcome <;>
    simp [cleanupWithStore, h, harith]

/-- C1: with brute-force protection enabled, Validate answers allowed
exactly when the stored attempt count of the username over the trailing
5-minute window is strictly below the ceiling of 5; a count of exactly 5
is not allowed. -/
theorem validate_threshold (s : Service) (clock : Nat → Int) (username : String) (n : Int)
    (henabled : s.cfg.DisableBruteForceLoginProtection = false)
    (hcount : s.store.GetUserLoginAttemptCount
        { Username := username, Since := clock 0 - loginAttemptsWindow } = Except.ok n) :
    (s.Validate clock username).fst = Except.ok (decide (n < maxInvalidLoginAttempts)) := by
  simp only [Service.Validate, henabled, Bool.false_eq_true, if_false, hcount]
  split
  · simp only [Except.ok.injEq]
    have : ¬ n < maxInvalidLoginAttempts := by omega
    simp [this]
  · rename_i h
    have : n < maxInvalidLoginAttempts := by omega
    simp [this]

/-- Witness for C1: a count of exactly 5 yields not allowed. -/
theorem validate_threshold_witness :
    (Service.Validate { store := storeConst 5, cfg := cfgOn } (clockAt 0) "alice").fst =
      Except.ok false := by
  have h := validate_threshold { store := storeConst 5, cfg := cfgOn }
    (clockAt 0) "alice" 5 rfl rfl
  simpa using h

/-- C2: with brute-force protection disabled, Add issues no store
operation and succeeds, and Validate answers true with no store
operation, whatever the store (so whatever was previously recorded). -/
theorem disabled_no_store_interaction (s : Service) (clock : Nat → Int)
    (username IPAddress : String)
    (hdisabled : s.cfg.DisableBruteForceLoginProtection = true) :
    s.Add username IPAddress = (Except.ok (), []) ∧
    s.Validate clock username = (Except.ok true, []) := by
  constructor <;> simp [Service.Add, Service.Validate, hdisabled]

/-- Witness for C2: even on a store whose every operation fails, the
disabled service records nothing and allows the login. -/
theorem disabled_no_store_interaction_witness :
    Service.Add { store := storeFail, cfg := cfgOff } "alice" "10.0.0.1" =
        (Except.ok (), []) ∧
    Service.Validate { store := storeFail, cfg := cfgOff } (clockAt 0) "alice" =
        (Except.ok true, []) :=
  disabled_no_store_interaction { store := storeFail, cfg := cfgOff }
    (clockAt 0) "alice" "10.0.0.1" rfl

/-- C3: a failing store create surfaces unchanged from Add, and a failing
store count surfaces unchanged from Validate. -/
theorem store_error_propagated (s : Service) (clock : Nat → Int)
    (username IPAddress : String) (e : Err)
    (henabled : s.cfg.DisableBruteForceLoginProtection = false) :
    (s.store.CreateLoginAttempt { Username := username, IpAddress := IPAddress } =
          Except.error e →
        (s.Add username IPAddress).fst = Except.error e) ∧
    (s.store.GetUserLoginAttemptCount
          { Username := username, Since := clock 0 - loginAttemptsWindow } =
          Except.error e →
        (s.Validate clock username).fst = Except.error e) := by
  constructor
  · intro h; simp [Service.Add, henabled, h]
  · intro h; simp [Service.Validate, henabled, h]

/-- Witness for C3: the error of the failing store comes back verbatim. -/
theorem store_error_propagated_witness :
    (Service.Add { store := storeFail, cfg := cfgOn } "alice" "10.0.0.1").fst =
        Except.error errX ∧
    (Service.Validate { store := storeFail, cfg := cfgOn } (clockAt 0) "alice").fst =
        Except.error errX :=
  ⟨(store_error_propagated { store := storeFail, cfg := cfgOn }
      (clockAt 0) "alice" "10.0.0.1" errX rfl).1 rfl,
   (store_error_propagated { store := storeFail, cfg := cfgOn }
      (clockAt 0) "alice" "10.0.0.1" errX rfl).2 rfl⟩

/-- C4: with protection enabled, the Run loop ends exactly at the first
context-done event, returning its cause; store failures and lock failures
(any envs, any store) never end it, and without a context-done event it
is still running after any number of ticks. -/
theorem run_terminates_only_on_cancellation (s : Service) (envs : Nat → TickEnv)
    (events : List RunEvent)
    (henabled : s.cfg.DisableBruteForceLoginProtection = false) :
    (s.Run envs events).fst =
      match firstCause events with
      | none => RunOutcome.running
      | some cause => RunOutcome.returned (some cause) := by
  simp only [Service.Run, henabled, Bool.false_eq_true, if_false]
  exact runTicks_fst s.store envs events 0

/-- Witness for C4: on a store whose delete always fails, a tick does not
end the loop and the following cancellation returns its cause. -/
theorem run_terminates_only_on_cancellation_witness :
    (Service.Run { store := storeFail, cfg := cfgOn } (fun _ => envAcquired 0)
        [RunEvent.tick, RunEvent.ctxDone errX]).fst =
      RunOutcome.returned (some errX) := by
  have h := run_terminates_only_on_cancellation { store := storeFail, cfg := cfgOn }
    (fun _ => envAcquired 0) [RunEvent.tick, RunEvent.ctxDone errX] rfl
  simpa [firstCause] using h

/-- C5: when protection is disabled, Run returns a nil error at once,
consuming no event and running no cleanup; when it is enabled, Run equals
the runTicks loop, a function with no access to the configuration, so
the disabled check is made once at entry and never re-evaluated. -/
theorem run_disabled_checked_once (s : Service) (envs : Nat → TickEnv)
    (events : List RunEvent) :
    (s.cfg.DisableBruteForceLoginProtection = true →
        s.Run envs events = (RunOutcome.returned none, [])) ∧
    (s.cfg.DisableBruteForceLoginProtection = false →
        s.Run envs events = runTicks s.store envs events 0) := by
  constructor <;> intro h <;> simp [Service.Run, h]

/-- Witness for C5: a disabled service ignores a pending tick and returns
nil; an enabled one runs the configuration-free loop. -/
theorem run_disabled_checked_once_witness :
    Service.Run { store := storeFail, cfg := cfgOff } (fun _ => envAcquired 0)
        [RunEvent.tick] = (RunOutcome.returned none, []) ∧
    Service.Run { store := storeFail, cfg := cfgOn } (fun _ => envAcquired 0) [] =
        runTicks storeFail (fun _ => envAcquired 0) [] 0 :=
  ⟨(run_disabled_checked_once { store := storeFail, cfg := cfgOff }
      (fun _ => envAcquired 0) [RunEvent.tick]).1 rfl,
   (run_disabled_checked_once { store := storeFail, cfg := cfgOn }
      (fun _ => envAcquired 0) []).2 rfl⟩

/-- C6: Validate reads the clock exactly once: its whole result depends
only on sample 0, and the query it issues carries Since equal to that one
sample minus the 5-minute window; likewise a cleanup run depends only on
its lock outcome and clock sample 0, and its deletion threshold is that
one sample minus 10 minutes. -/
theorem single_now_sample (s : Service) (username : String)
    (c d : Nat → Int) (env env2 : TickEnv)
    (henabled : s.cfg.DisableBruteForceLoginProtection = false)
    (hc : c 0 = d 0)
    (henv : env.lockOutcome = env2.lockOutcome)
    (henvclock : env.clock 0 = env2.clock 0) :
    s.Validate c username = s.Validate d username ∧
    (s.Validate c username).snd =
      [StoreOp.count { Username := username, Since := c 0 - loginAttemptsWindow }] ∧
    s.cleanup env = s.cleanup env2 ∧
    (env.lockOutcome = LockOutcome.acquired →
      (s.cleanup env).storeOps =
        [StoreOp.deleteOld { OlderThan := env.clock 0 - Duration.minute * 10 }]) := by
  refine ⟨?_, ?_, ?_, ?_⟩
  · simp only [Service.Validate, hc]
  · simp [Service.Validate, henabled]
  · show cleanupWithStore s.store env = cleanupWithStore s.store env2
    unfold cleanupWithStore
    rw [← henv, ← henvclock]
  · intro hacq
    exact (cleanupWithStore_fields s.store env).2.2.2.2 hacq

/-- Witness for C6: two clocks agreeing at sample 0 give one result, and
the issued query and deletion threshold sit at that sample minus the
window. -/
theorem single_now_sample_witness :
    Service.Validate { store := storeConst 0, cfg := cfgOn }
        (clockAt (Duration.minute * 100)) "alice" =
      Service.Validate { store := storeConst 0, cfg := cfgOn }
        (fun n => Duration.minute * 100 + n) "alice" ∧
    (Service.Validate { store := storeConst 0, cfg := cfgOn }
        (clockAt (Duration.minute * 100)) "alice").snd =
      [StoreOp.count
        { Username := "alice", Since := Duration.minute * 100 - loginAttemptsWindow }] ∧
    Service.cleanup { store := storeConst 0, cfg := cfgOn }
        (envAcquired (Duration.minute * 100)) =
      Service.cleanup { store := storeConst 0, cfg := cfgOn }
        (envAcquired (Duration.minute * 100)) ∧
    ((envAcquired (Duration.minute * 100)).lockOutcome = LockOutcome.acquired →
      (Service.cleanup { store := storeConst 0, cfg := cfgOn }
          (envAcquired (Duration.minute * 100))).storeOps =
        [StoreOp.deleteOld { OlderThan :=
            (envAcquired (Duration.minute * 100)).clock 0 - Duration.minute * 10 }]) := by
  have h := single_now_sample { store := storeConst 0, cfg := cfgOn } "alice"
    (clockAt (Duration.minute * 100)) (fun n => Duration.minute * 100 + n)
    (envAcquired (Duration.minute * 100)) (envAcquired (Duration.minute * 100))
    rfl (by simp [clockAt]) rfl rfl
  exact ⟨h.1, h.2.1, h.2.2.1, h.2.2.2⟩

/-- C7: every cleanup run of the Run loop requests the lock under the
name delete old login attempts with a 10-minute maximum hold, the ticker
fires every 10 minutes, and when the lock is acquired the cleanup issues
exactly one delete of the rows older than its sampled now minus 10
minutes. -/
theorem cleanup_lock_name_and_threshold (s : Service) (envs : Nat → TickEnv)
    (events : List RunEvent) (c : CleanupResult)
    (henabled : s.cfg.DisableBruteForceLoginProtection = false)
    (hc : c ∈ (s.Run envs events).snd) :
    runTickerInterval = Duration.minute * 10 ∧
    c.lockName = "delete old login attempts" ∧
    c.lockDuration = Duration.minute * 10 ∧
    (c.lockOutcome = LockOutcome.acquired →
      c.storeOps = [StoreOp.deleteOld { OlderThan := c.now - Duration.minute * 10 }]) := by
  simp only [Service.Run, henabled, Bool.false_eq_true, if_false] at hc
  obtain ⟨env, rfl⟩ := runTicks_mem_cleanup s.store envs events 0 c hc
  obtain ⟨h1, h2, h3, h4, h5⟩ := cleanupWithStore_fields s.store env
  refine ⟨rfl, h1, h2, ?_⟩
  intro hacq
  rw [h3] at hacq
  rw [h5 hacq, h4]

/-- Witness for C7: the single tick of a one-event run produces a cleanup
with the expected lock name, hold duration and delete threshold. -/
theorem cleanup_lock_name_and_threshold_witness :
    runTickerInterval = Duration.minute * 10 ∧
    (cleanupWithStore (storeConst 0) (envAcquired 0)).lockName =
        "delete old login attempts" ∧
    (cleanupWithStore (storeConst 0) (envAcquired 0)).lockDuration =
        Duration.minute * 10 ∧
    ((cleanupWithStore (storeConst 0) (envAcquired 0)).lockOutcome =
        LockOutcome.acquired →
      (cleanupWithStore (storeConst 0) (envAcquired 0)).storeOps =
        [StoreOp.deleteOld { OlderThan :=
            (cleanupWithStore (storeConst 0) (envAcquired 0)).now -
              Duration.minute * 10 }]) := by
  exact cleanup_lock_name_and_threshold { store := storeConst 0, cfg := cfgOn }
    (fun _ => envAcquired 0) [RunEvent.tick]
    (cleanupWithStore (storeConst 0) (envAcquired 0)) rfl
    (by simp [Service.Run, runTicks, cfgOn])

/-- C8: Validate is a pure read: every store operation it issues is a
count query, and replaying its trace over any stored rows leaves them
unchanged. -/
theorem validate_pure_read (s : Service) (clock : Nat → Int) (username : String)
    (records : List LoginAttempt) (now : Int) :
    (∀ op ∈ (s.Validate clock username).snd, ∃ q, op = StoreOp.count q) ∧
    applyOps records now (s.Validate clock username).snd = records := by
  by_cases h : s.cfg.DisableBruteForceLoginProtection
  · simp [Service.Validate, h, applyOps]
  · simp [Service.Validate, h, applyOps, applyOp]

/-- Witness for C8: a concrete Validate trace leaves a concrete row set
unchanged. -/
theorem validate_pure_read_witness :
    applyOps [{ Username := "alice", IpAddress := "10.0.0.1", Created := 0 }] 0
        ((Service.Validate { store := storeConst 0, cfg := cfgOn }
            (clockAt 0) "alice").snd) =
      [{ Username := "alice", IpAddress := "10.0.0.1", Created := 0 }] :=
  (validate_pure_read { store := storeConst 0, cfg := cfgOn } (clockAt 0) "alice"
    [{ Username := "alice", IpAddress := "10.0.0.1", Created := 0 }] 0).2

/-- C9: a stored attempt whose timestamp is at or before the sampled now
minus the 5-minute window never influences Validate over the list-backed
store: the boundary row at exactly now minus 5 minutes is excluded from
the count. -/
theorem stale_attempt_excluded (cfg : Cfg) (clock : Nat → Int) (username : String)
    (r : LoginAttempt) (rest : List LoginAttempt)
    (hstale : r.Created ≤ clock 0 - loginAttemptsWindow) :
    Service.Validate { store := listStore (r :: rest), cfg := cfg } clock username =
      Service.Validate { store := listStore rest, cfg := cfg } clock username := by
  by_cases h : cfg.DisableBruteForceLoginProtection
  · simp [Service.Validate, h]
  · have hge : ¬ (clock 0 - loginAttemptsWindow < r.Created) := not_lt.mpr hstale
    simp [Service.Validate, h, listStore, countLoginAttempts, List.filter_cons, hge]

/-- Witness for C9: a row at exactly now minus 5 minutes is invisible to
Validate. -/
theorem stale_attempt_excluded_witness :
    Service.Validate
        { store := listStore
            [{ Username := "alice", IpAddress := "10.0.0.1",
               Created := Duration.minute * 95 }],
          cfg := cfgOn }
        (clockAt (Duration.minute * 100)) "alice" =
      Service.Validate { store := listStore [], cfg := cfgOn }
        (clockAt (Duration.minute * 100)) "alice" :=
  stale_attempt_excluded cfgOn (clockAt (Duration.minute * 100)) "alice"
    { Username := "alice", IpAddress := "10.0.0.1", Created := Duration.minute * 95 }
    [] (by decide)

end loginattemptimpl

namespace routes

/-- C10: DimensionKeysHandler returns exactly one of a body and an error:
the body is present exactly when the error is absent; every error carries
the fixed handler message, status 400 exactly when parsing the request
parameters failed, and status 500 exactly otherwise (service
construction, key lookup or marshalling failed after a successful
parse). -/
theorem dimension_keys_handler_exclusive (deps : RoutesDeps)
    (pluginCtx : PluginContext) (parameters : UrlValues) :
    ((DimensionKeysHandler deps pluginCtx parameters).fst.isSome ↔
      (DimensionKeysHandler deps pluginCtx parameters).snd = none) ∧
    (∀ he : HttpError,
      (DimensionKeysHandler deps pluginCtx parameters).snd = some he →
        he.Message = "error in DimensionKeyHandler" ∧
        (he.StatusCode = StatusBadRequest ↔
          ∃ e, deps.getDimensionKeysRequest parameters = Except.error e) ∧
        (he.StatusCode = StatusInternalServerError ↔
          ∀ e, deps.getDimensionKeysRequest parameters ≠ Except.error e)) := by
  rcases hreq : deps.getDimensionKeysRequest parameters with e | req
  · constructor
    · simp [DimensionKeysHandler, hreq]
    · intro he hhe
      simp only [DimensionKeysHandler, hreq, Option.some.injEq] at hhe
      subst hhe
      refine ⟨rfl, ?_, ?_⟩
      · refine iff_of_true rfl ?_
        exact ⟨e, rfl⟩
      · refine iff_of_false
          (by simp [NewHttpError, StatusBadRequest, StatusInternalServerError]) ?_
        intro hall
        exact hall e rfl
  · rcases hsvc : deps.newListMetricsService pluginCtx req.Region with e | service
    · constructor
      · simp [DimensionKeysHandler, hreq, hsvc]
      · intro he hhe
        simp only [DimensionKeysHandler, hreq, hsvc, Option.some.injEq] at hhe
        subst hhe
        refine ⟨rfl, ?_, ?_⟩
        · refine iff_of_false
            (by simp [NewHttpError, StatusBadRequest, StatusInternalServerError]) ?_
          rintro ⟨e2, he2⟩
          exact Except.noConfusion he2
        · refine iff_of_true rfl ?_
          intro e2 h2
          exact Except.noConfusion h2
    · rcases hresp :
          (match req.requestKind with
            | DimensionKeysRequestKind.FilterDimensionKeysRequest => service req
            | DimensionKeysRequestKind.StandardDimensionKeysRequest =>
                deps.getHardCodedDimensionKeysByNamespace req.Namespace) with e | response
      · constructor
        · simp [DimensionKeysHandler, hreq, hsvc, hresp]
        · intro he hhe
          simp only [DimensionKeysHandler, hreq, hsvc, hresp, Option.some.injEq] at hhe
          subst hhe
          refine ⟨rfl, ?_, ?_⟩
          · refine iff_of_false
              (by simp [NewHttpError, StatusBadRequest, StatusInternalServerError]) ?_
            rintro ⟨e2, he2⟩
            exact Except.noConfusion he2
          · refine iff_of_true rfl ?_
            intro e2 h2
            exact Except.noConfusion h2
      · rcases hjson : deps.jsonMarshal response with e | jsonResponse
        · constructor
          · simp [DimensionKeysHandler, hreq, hsvc, hresp, hjson]
          · intro he hhe
            simp only [DimensionKeysHandler, hreq, hsvc, hresp, hjson,
              Option.some.injEq] at hhe
            subst hhe
            refine ⟨rfl, ?_, ?_⟩
            · refine iff_of_false
                (by simp [NewHttpError, StatusBadRequest, StatusInternalServerError]) ?_
              rintro ⟨e2, he2⟩
              exact Except.noConfusion he2
            · refine iff_of_true rfl ?_
              intro e2 h2
              exact Except.noConfusion h2
        · constructor
          · simp [DimensionKeysHandler, hreq, hsvc, hresp, hjson]
          · intro he hhe
            simp [DimensionKeysHandler, hreq, hsvc, hresp, hjson] at hhe

/-- Witness for C10: when parsing fails, the returned error has the
handler message and status 400, and status 500 is excluded. -/
theorem dimension_keys_handler_exclusive_witness :
    (NewHttpError "error in DimensionKeyHandler" StatusBadRequest
        { msg := "bad request" }).Message = "error in DimensionKeyHandler" ∧
    ((NewHttpError "error in DimensionKeyHandler" StatusBadRequest
        { msg := "bad request" }).StatusCode = StatusBadRequest ↔
      ∃ e, depsParseFail.getDimensionKeysRequest [] = Except.error e) ∧
    ((NewHttpError "error in DimensionKeyHandler" StatusBadRequest
        { msg := "bad request" }).StatusCode = StatusInternalServerError ↔
      ∀ e, depsParseFail.getDimensionKeysRequest [] ≠ Except.error e) :=
  (dimension_keys_handler_exclusive depsParseFail ctx0 []).2
    (NewHttpError "error in DimensionKeyHandler" StatusBadRequest
      { msg := "bad request" }) rfl

end routes
